import Mathlib

/-!
Verification development for the `uploadx-client` resumable-upload client
(`src/client.ts`). The definitions below are a shallow embedding of the
client's data model and chunk-driver loops:

* byte buffers (`Uint8Array`, `Blob`, Node `Buffer`, on-disk files) are
  `List Nat`;
* JavaScript numbers used as byte offsets are `Int` (all the arithmetic the
  client performs on them is exact integer arithmetic);
* the HTTP transport is an oracle: each request's relevant response data
  (the `location`/`range` headers) is supplied as an input, and the bytes a
  request would transmit are recorded in a `SentChunk` trace;
* the driver `while` loops are fuel-indexed recursions; `Outcome.fuelOut`
  marks an execution that did not finish within the given fuel (the JS loop
  would still be running).
-/

/-- Byte buffers are lists of byte values. -/
abbrev Bytes := List Nat

/-- `parseInt(s, 10)` on a non-empty all-digit string. -/
def digitsVal (ds : List Char) : Nat :=
  ds.foldl (fun acc c => acc * 10 + (c.toNat - 48)) 0

/-- Attempt to match the regular expression `bytes=\d+-(\d+)` at the head of
the character list, returning the captured second digit run. Both `\d+` are
greedy; since the characters following them (`-` and the match end) are not
digits, maximal munch is exact. -/
def matchBytesAt : List Char → Option (List Char)
  | 'b' :: 'y' :: 't' :: 'e' :: 's' :: '=' :: rest =>
    let d1 := rest.takeWhile Char.isDigit
    if d1.isEmpty then none
    else
      match rest.dropWhile Char.isDigit with
      | '-' :: rest2 =>
        let d2 := rest2.takeWhile Char.isDigit
        if d2.isEmpty then none else some d2
      | _ => none
  | _ => none

/-- `String.prototype.match` semantics for the unanchored pattern
`bytes=\d+-(\d+)`: the leftmost position where the pattern matches wins. -/
def findBytesMatch : List Char → Option (List Char)
  | [] => none
  | c :: cs =>
    match matchBytesAt (c :: cs) with
    | some d => some d
    | none => findBytesMatch cs

/-- `parseRangeHeader` (client.ts:664-669): a missing (or empty, hence falsy)
header yields 0; otherwise the first match of `bytes=\d+-(\d+)` yields the
captured number plus one, and no match yields 0. -/
def parseRangeHeader (range : Option String) : Nat :=
  match range with
  | none => 0
  | some s =>
    match findBytesMatch s.toList with
    | some d2 => digitsVal d2 + 1
    | none => 0

/-- Clamp a JavaScript slice index into `[0, len]`: negative indices count
from the end of the buffer (as in `TypedArray.subarray`, `Blob.slice` and
Node `Buffer.slice`). -/
def jsIndex (len : Nat) (i : Int) : Nat :=
  if i < 0 then (i + len).toNat else min i.toNat len

/-- Shared semantics of `Uint8Array.subarray(start, end)`, `Blob.slice(start,
end)` and Node `Buffer.slice(start, end)`: the bytes in the clamped half-open
index range. -/
def jsSlice (b : Bytes) (start stop : Int) : Bytes :=
  (b.take (jsIndex b.length stop)).drop (jsIndex b.length start)

/-- Node `fs.createReadStream(path, …) with options `start`/`end`: reads the
bytes at indices `start .. end` INCLUSIVE (clamped to the file size). The
file driver passes its exclusive chunk end as the `end` option
(client.ts:458-461). -/
def fileReadWindow (file : Bytes) (start stop : Int) : Bytes :=
  (file.take (stop.toNat + 1)).drop start.toNat

/-- The `Content-Range` request header built by `uploadChunk`
(client.ts:414). -/
def contentRangeHeader (start stop total : Int) : String :=
  "bytes " ++ toString start ++ "-" ++ toString (stop - 1) ++ "/" ++ toString total

/-- One chunk PUT as observed on the wire: the declared bounds, the
transmitted body and the `Content-Range` header. (`stop` is the exclusive
bound the source calls `end`.) -/
structure SentChunk where
  start : Int
  stop : Int
  body : Bytes
  total : Int
  contentRange : String
deriving DecidableEq

/-- `uploadChunk` (client.ts:403-433): issues the PUT (recorded as a
`SentChunk`) and returns `parseRangeHeader` of the response's `range` header.
The url and the progress callback play no role in any property below and are
omitted. -/
def uploadChunk (data : Bytes) (start stop total : Int) (respRange : Option String) :
    SentChunk × Nat :=
  (⟨start, stop, data, total, contentRangeHeader start stop total⟩,
    parseRangeHeader respRange)

/-- How a driver loop ended: normal completion with its final `position`,
an `AbortError` throw, or fuel exhaustion (the JS loop would not have
terminated yet). -/
inductive Outcome where
  | done (finalPos : Int)
  | aborted
  | fuelOut
deriving DecidableEq

/-- A driver execution: the chunk requests it issued, and how it ended. -/
structure Run where
  sent : List SentChunk
  outcome : Outcome
deriving DecidableEq

/-- The loop of `uploadBufferInChunks` (client.ts:632-653). `srv k` is the
`range` response header of the `k`-th chunk PUT and `sig k` the abort-signal
state at the `k`-th loop-top check. The acked count returned by
`uploadChunk` is ignored: `position = end` unconditionally. -/
def uploadBufferLoop (chunkSize total : Int) (view : Bytes)
    (srv : Nat → Option String) (sig : Nat → Bool) :
    Nat → Int → Nat → Run
  | fuel, pos, k =>
    if pos < total then
      if sig k then ⟨[], Outcome.aborted⟩
      else
        match fuel with
        | 0 => ⟨[], Outcome.fuelOut⟩
        | Nat.succ fuel' =>
          let stop := min (pos + chunkSize) total
          let sc := (uploadChunk (jsSlice view pos stop) pos stop total (srv k)).1
          let rest := uploadBufferLoop chunkSize total view srv sig fuel' stop (k + 1)
          ⟨sc :: rest.sent, rest.outcome⟩
    else ⟨[], Outcome.done pos⟩

/-- `uploadBufferInChunks` (client.ts:622-654): an `ArrayBuffer` is first
viewed as a `Uint8Array`; both are `view` here. -/
def uploadBufferInChunks (chunkSize : Int) (view : Bytes) (srv : Nat → Option String)
    (sig : Nat → Bool) (start total : Int) (fuel : Nat) : Run :=
  uploadBufferLoop chunkSize total view srv sig fuel start 0

/-- The loop of `uploadBlobInChunks` (client.ts:484-513): identical to the
buffer loop except that the chunk is produced by `blob.slice`; the acked
count is likewise ignored. -/
def uploadBlobLoop (chunkSize total : Int) (blob : Bytes)
    (srv : Nat → Option String) (sig : Nat → Bool) :
    Nat → Int → Nat → Run
  | fuel, pos, k =>
    if pos < total then
      if sig k then ⟨[], Outcome.aborted⟩
      else
        match fuel with
        | 0 => ⟨[], Outcome.fuelOut⟩
        | Nat.succ fuel' =>
          let stop := min (pos + chunkSize) total
          let sc := (uploadChunk (jsSlice blob pos stop) pos stop total (srv k)).1
          let rest := uploadBlobLoop chunkSize total blob srv sig fuel' stop (k + 1)
          ⟨sc :: rest.sent, rest.outcome⟩
    else ⟨[], Outcome.done pos⟩

/-- `uploadBlobInChunks` (client.ts:484-513). -/
def uploadBlobInChunks (chunkSize : Int) (blob : Bytes) (srv : Nat → Option String)
    (sig : Nat → Bool) (start total : Int) (fuel : Nat) : Run :=
  uploadBlobLoop chunkSize total blob srv sig fuel start 0

/-- The loop of `uploadFileInChunks` (client.ts:449-481): the chunk body is a
per-chunk read window `createReadStream(filePath, start: position, end: end)`
(inclusive `end`), and after `position = end` the server's acked count
replaces `position` when it is strictly larger (client.ts:473-480). -/
def uploadFileLoop (chunkSize total : Int) (file : Bytes)
    (srv : Nat → Option String) (sig : Nat → Bool) :
    Nat → Int → Nat → Run
  | fuel, pos, k =>
    if pos < total then
      if sig k then ⟨[], Outcome.aborted⟩
      else
        match fuel with
        | 0 => ⟨[], Outcome.fuelOut⟩
        | Nat.succ fuel' =>
          let stop := min (pos + chunkSize) total
          let res := uploadChunk (fileReadWindow file pos stop) pos stop total (srv k)
          let newPos := if (res.2 : Int) > stop then (res.2 : Int) else stop
          let rest := uploadFileLoop chunkSize total file srv sig fuel' newPos (k + 1)
          ⟨res.1 :: rest.sent, rest.outcome⟩
    else ⟨[], Outcome.done pos⟩

/-- `uploadFileInChunks` (client.ts:435-482). -/
def uploadFileInChunks (chunkSize : Int) (file : Bytes) (srv : Nat → Option String)
    (sig : Nat → Bool) (start total : Int) (fuel : Nat) : Run :=
  uploadFileLoop chunkSize total file srv sig fuel start 0

/-- The errors the client's own code distinguishes: its `AbortError` class
(checked with `instanceof`) versus every other `Error`, carried by its
message. -/
inductive JsError where
  | abortError
  | error (msg : String)
deriving DecidableEq

/-- `handleError` (client.ts:671-685): an `AbortError` is returned unchanged;
any other error is re-wrapped with the phase-naming context prefix. -/
def handleError (e : JsError) (context : String) : JsError :=
  match e with
  | JsError.abortError => JsError.abortError
  | JsError.error msg => JsError.error (context ++ ": " ++ msg)

/-- The stream driver's mutable state (client.ts:515-620): the resume
`position`, the list of buffered `Buffer`s (`chunks`), the running byte count
`chunksSize`, the trace of issued chunk PUTs, and `ok`, which records that
every inner `while` loop finished within its fuel (a modelling flag; the JS
loop has no such bound). -/
structure StreamState where
  position : Int
  chunks : List Bytes
  chunksSize : Int
  sent : List SentChunk
  ok : Bool
deriving DecidableEq

/-- Result of the synchronous `while (chunksSize >= this.chunkSize)` loop of
the stream driver's `data` handler (client.ts:551-575). `lastStop` is the
chunk end captured by the last launched upload's `.then`, which is the value
`position` holds once all pending `.then` callbacks have run; `fuelOk` is
false when the fuel ran out with the loop condition still true. -/
structure CutResult where
  chunks : List Bytes
  csize : Int
  sent : List SentChunk
  lastStop : Option Int
  fuelOk : Bool
deriving DecidableEq

/-- The `while (chunksSize >= this.chunkSize)` loop, run synchronously inside
one `data` event. `p` is the value of `position` throughout the loop: the
handler runs to completion before any `.then` callback can update `position`,
so every iteration reads the same (possibly stale) value. -/
def streamCutLoop (chunkSize total : Int) (srv : Nat → Option String) (p : Int) :
    Nat → List Bytes → Int → Nat → CutResult
  | fuel, chunks, csize, k =>
    if chunkSize ≤ csize then
      match fuel with
      | 0 => ⟨chunks, csize, [], none, false⟩
      | Nat.succ fuel' =>
        let stop := min (p + chunkSize) total
        let buf := chunks.flatten
        let keep := jsSlice buf (stop - p) (buf.length : Int)
        let sc := (uploadChunk (jsSlice buf 0 (stop - p)) p stop total (srv k)).1
        let rest :=
          streamCutLoop chunkSize total srv p fuel' [keep]
            ((buf.length : Int) - (stop - p)) (k + 1)
        ⟨rest.chunks, rest.csize, sc :: rest.sent, some (rest.lastStop.getD stop),
          rest.fuelOk⟩
    else ⟨chunks, csize, [], none, true⟩

/-- One `data` event (client.ts:547-576) under the pause/resume discipline:
the buffer is appended, full chunks are cut and uploaded, and — because
`stream.pause()` keeps further events out until every launched upload's
`.then` has run `position = end; stream.resume()` — the pending position
updates are applied before the next event. `k` counts chunk PUTs issued so
far (it indexes `srv`). -/
def streamOnData (chunkSize total : Int) (srv : Nat → Option String)
    (st : StreamState) (k : Nat) (b : Bytes) : StreamState × Nat :=
  let chunks := st.chunks ++ [b]
  let csize := st.chunksSize + (b.length : Int)
  let r := streamCutLoop chunkSize total srv st.position (csize.toNat + 1) chunks csize k
  (⟨r.lastStop.getD st.position, r.chunks, r.csize, st.sent ++ r.sent,
      st.ok && r.fuelOk⟩,
    k + r.sent.length)

deriving instance DecidableEq for Except

/-- A finished stream driver invocation: the final state (its `sent` field is
the PUT trace) and the promise's settlement. -/
structure StreamRun where
  st : StreamState
  result : Except JsError Unit
deriving DecidableEq

/-- The `end` event (client.ts:578-611): if any buffer entry remains
(`chunks.length > 0` — note an empty `Buffer` left by a cut counts), the
abort flag is consulted and the WHOLE concatenated buffer is uploaded with
declared end `min(position + chunksSize, totalSize)`; then
`position += chunksSize` and the promise resolves. `sigEnd` is the abort
flag's value at this check; a rejection with `AbortError` is `Except.error
()`. -/
def streamOnEnd (total : Int) (srv : Nat → Option String) (sigEnd : Bool)
    (stk : StreamState × Nat) : StreamRun :=
  let st := stk.1
  if st.chunks.isEmpty then ⟨st, Except.ok ()⟩
  else if sigEnd then ⟨st, Except.error JsError.abortError⟩
  else
    let stop := min (st.position + st.chunksSize) total
    let sc := (uploadChunk st.chunks.flatten st.position stop total (srv stk.2)).1
    ⟨⟨st.position + st.chunksSize, st.chunks, st.chunksSize, st.sent ++ [sc], st.ok⟩,
      Except.ok ()⟩

/-- `uploadStreamInChunks` (client.ts:515-620) on a sequence of `data`
events followed by `end`. `sig0` is the abort flag at the initial
`signal.aborted` check (client.ts:540-543), which rejects with `AbortError`
before any data is consumed. The server's acked counts are never consulted
by this driver (`.then((range) => …)` ignores its argument). -/
def uploadStreamInChunks (chunkSize : Int) (events : List Bytes)
    (srv : Nat → Option String) (sig0 sigEnd : Bool) (start total : Int) : StreamRun :=
  if sig0 then ⟨⟨start, [], 0, [], true⟩, Except.error JsError.abortError⟩
  else
    streamOnEnd total srv sigEnd
      (events.foldl (fun stk b => streamOnData chunkSize total srv stk.1 stk.2 b)
        (⟨start, [], 0, [], true⟩, 0))

/-- The headers of a session-creation response that the client reads. -/
structure CreateResponse where
  location : Option String
  range : Option String
deriving DecidableEq

/-- The session `createUpload` returns: the session URL and the acked-byte
count parsed from the optional `range` header. -/
structure CreateSession where
  url : String
  uploadedBytes : Nat
deriving DecidableEq

/-- `new URL(location, endpoint).toString()` (client.ts:166). URL resolution
of a possibly-relative location against the endpoint is opaque to every
property below; the location is carried through unchanged. -/
def resolveUrl (location _endpoint : String) : String :=
  location

/-- `createUpload` (client.ts:145-172): a transport failure, and a response
without a `location` header (`throw new Error('Missing Location header in
response')`), are both wrapped by `handleError` with the context `Session
creation failed`; otherwise the session URL and `parseRangeHeader` of the
`range` header are returned. -/
def createUpload (endpoint : String) (resp : Except JsError CreateResponse) :
    Except JsError CreateSession :=
  match resp with
  | Except.error e => Except.error (handleError e "Session creation failed")
  | Except.ok r =>
    match r.location with
    | none =>
      Except.error
        (handleError (JsError.error "Missing Location header in response")
          "Session creation failed")
    | some loc => Except.ok ⟨resolveUrl loc endpoint, parseRangeHeader r.range⟩

/-- `getUploadStatus` (client.ts:383-401): NO try/catch — a transport failure
propagates unwrapped; on success the acked count is `parseRangeHeader` of the
response's `range` header. `resp` is the status-probe PUT's outcome. -/
def getUploadStatus (resp : Except JsError (Option String)) : Except JsError Nat :=
  match resp with
  | Except.error e => Except.error e
  | Except.ok range => Except.ok (parseRangeHeader range)

/-- `deleteUpload` (client.ts:113-119): the catch block calls `handleError`
but does not `throw` (nor return) its result, so the wrapped error is
discarded and the method resolves successfully even when the DELETE failed. -/
def deleteUpload (resp : Except JsError Unit) : Except JsError Unit :=
  match resp with
  | Except.ok _ => Except.ok ()
  | Except.error e =>
    let _dropped := handleError e "Failed to delete upload"
    Except.ok ()

/-- `updateUpload` (client.ts:125-140): the catch block throws the wrapped
error. -/
def updateUpload (resp : Except JsError Unit) : Except JsError Unit :=
  match resp with
  | Except.ok _ => Except.ok ()
  | Except.error e => Except.error (handleError e "Failed to update metadata")

/-- Map a pull-driver run to the promise settlement its caller sees: an
`AbortError` throw for `Outcome.aborted`. `Outcome.fuelOut` is a modelling
artifact (the loop would still be running); it is mapped to a distinguished
error so that no theorem can mistake it for a finished call. -/
def runToExcept (r : Run) : Except JsError Unit :=
  match r.outcome with
  | Outcome.done _ => Except.ok ()
  | Outcome.aborted => Except.error JsError.abortError
  | Outcome.fuelOut => Except.error (JsError.error "model: fuel exhausted")

/-- The catch block shared by `upload`, `resumeUpload`, `fileUpload` and
`resumeFileUpload` (for example client.ts:280-287): an `AbortError` is
swallowed (the call resolves), every other error is re-thrown wrapped with
the phase-naming context. -/
def catchTopLevel (r : Except JsError Unit) (context : String) : Except JsError Unit :=
  match r with
  | Except.ok _ => Except.ok ()
  | Except.error JsError.abortError => Except.ok ()
  | Except.error e => Except.error (handleError e context)

/-- The three shapes `upload`'s `isBlob`/`isStream`/else dispatch
distinguishes (client.ts:252-279): a `Blob`/`File`, a push stream (modelled
by its `data` event sequence), or an `ArrayBuffer`/`Uint8Array`. -/
inductive Uploadable where
  | blobData (b : Bytes)
  | streamData (events : List Bytes)
  | bufferData (b : Bytes)
deriving DecidableEq

/-- `upload` (client.ts:240-288): create a session, take
`session.uploadedBytes || 0` as the start offset (`parseRangeHeader` already
yields 0 when the header is absent, so the `|| 0` is the identity here),
dispatch to the matching driver and apply the shared catch block. The
returned list is the trace of chunk PUTs the call issued. -/
def upload (chunkSize : Int) (endpoint : String)
    (createResp : Except JsError CreateResponse) (data : Uploadable)
    (totalSize : Int) (srv : Nat → Option String) (sig : Nat → Bool)
    (sig0 sigEnd : Bool) (fuel : Nat) : Except JsError Unit × List SentChunk :=
  match createUpload endpoint createResp with
  | Except.error e => (catchTopLevel (Except.error e) "Upload failed", [])
  | Except.ok session =>
    let start : Int := session.uploadedBytes
    match data with
    | Uploadable.blobData b =>
      let r := uploadBlobInChunks chunkSize b srv sig start totalSize fuel
      (catchTopLevel (runToExcept r) "Upload failed", r.sent)
    | Uploadable.streamData events =>
      let r := uploadStreamInChunks chunkSize events srv sig0 sigEnd start totalSize
      (catchTopLevel r.result "Upload failed", r.st.sent)
    | Uploadable.bufferData b =>
      let r := uploadBufferInChunks chunkSize b srv sig start totalSize fuel
      (catchTopLevel (runToExcept r) "Upload failed", r.sent)

/-- `resumeUpload` (client.ts:293-341): query the status (whose transport
failure propagates into this function's catch block), start from the
reported offset, dispatch, and apply the same catch block (context `Upload
failed`). -/
def resumeUpload (chunkSize : Int) (statusResp : Except JsError (Option String))
    (data : Uploadable) (totalSize : Int) (srv : Nat → Option String)
    (sig : Nat → Bool) (sig0 sigEnd : Bool) (fuel : Nat) :
    Except JsError Unit × List SentChunk :=
  match getUploadStatus statusResp with
  | Except.error e => (catchTopLevel (Except.error e) "Upload failed", [])
  | Except.ok uploadedBytes =>
    let start : Int := uploadedBytes
    match data with
    | Uploadable.blobData b =>
      let r := uploadBlobInChunks chunkSize b srv sig start totalSize fuel
      (catchTopLevel (runToExcept r) "Upload failed", r.sent)
    | Uploadable.streamData events =>
      let r := uploadStreamInChunks chunkSize events srv sig0 sigEnd start totalSize
      (catchTopLevel r.result "Upload failed", r.st.sent)
    | Uploadable.bufferData b =>
      let r := uploadBufferInChunks chunkSize b srv sig start totalSize fuel
      (catchTopLevel (runToExcept r) "Upload failed", r.sent)

/-- `fileUpload` (client.ts:201-235): `createFileUpload` stats the file and
creates the session (the stat only adjusts the metadata sent to the server,
which the oracle response already reflects); the loop total is the CALLER's
`metadata.size` (client.ts:217). The catch context names the file path. -/
def fileUpload (chunkSize : Int) (endpoint filePath : String)
    (createResp : Except JsError CreateResponse) (file : Bytes) (metaSize : Int)
    (srv : Nat → Option String) (sig : Nat → Bool) (fuel : Nat) :
    Except JsError Unit × List SentChunk :=
  match createUpload endpoint createResp with
  | Except.error e =>
    (catchTopLevel (Except.error e) ("File upload failed for " ++ filePath), [])
  | Except.ok session =>
    let start : Int := session.uploadedBytes
    let r := uploadFileInChunks chunkSize file srv sig start metaSize fuel
    (catchTopLevel (runToExcept r) ("File upload failed for " ++ filePath), r.sent)

/-- The client's cancellation wiring. The constructor creates one
`AbortController` and captures ITS signal into the axios instance's request
defaults (client.ts:72-80, `signal: this.abortController.signal`); `abort()`
(client.ts:104-108) aborts the controller currently held in
`this.abortController` and stores a brand-new controller in that field, but
never re-wires the axios instance. Controllers are numbered: `store i` is
controller `i`'s aborted flag, `clientSignal` identifies the controller whose
signal the axios instance captured at construction, `abortController` the one
currently held in `this.abortController`, and ids at or above `fresh` are not
yet constructed. -/
structure ClientAbortState where
  store : Nat → Bool
  clientSignal : Nat
  abortController : Nat
  fresh : Nat

/-- The state the constructor establishes: a single controller, referenced
both by `this.abortController` and by the axios defaults. -/
def clientInit : ClientAbortState :=
  ⟨fun _ => false, 0, 0, 1⟩

/-- `abort()` (client.ts:104-108): `this.abortController.abort()` sets the
HELD controller's flag, then a new controller replaces it in the field; the
signal captured in the axios instance's defaults is untouched. -/
def clientAbort (st : ClientAbortState) : ClientAbortState :=
  ⟨fun i => if i = st.abortController then true else st.store i,
    st.clientSignal, st.fresh, st.fresh + 1⟩

/-- Whether a request issued WITHOUT a per-call signal is canceled on
arrival: axios merges the instance-default signal — the constructor-time
controller's — into the request config, and an already-aborted signal makes
the request reject immediately with `CanceledError`. -/
def defaultSignalAborted (st : ClientAbortState) : Bool :=
  st.store st.clientSignal

/-- axios's rejection for a request whose abort signal is (or becomes)
aborted: `CanceledError`, message `canceled`. It extends `AxiosError`, NOT
the client's own `AbortError` class, so `error instanceof AbortError`
(client.ts:229, 282, 335, 372, 672) is false and it travels as an ordinary
error. -/
def axiosCanceledError : JsError := JsError.error "canceled"

/-- Total number of body bytes carried by a list of chunk requests. -/
def sumBodies (l : List SentChunk) : Nat :=
  (l.map (fun c => c.body.length)).sum

/-- Ceiling division on naturals, `ceil (a / c)`. -/
def ceilDiv (a c : Nat) : Nat := (a + c - 1) / c

example : parseRangeHeader none = 0 := by decide
example : parseRangeHeader (some "bytes=0-1023") = 1024 := by decide
example : parseRangeHeader (some "xbytes=1-2") = 3 := by decide
example : parseRangeHeader (some "bytes=0-") = 0 := by decide
example :
    (uploadBufferInChunks 1 [7, 8] (fun _ => none) (fun _ => false) 0 2 2).sent.map
      (fun c => c.start) = [0, 1] := by decide
example :
    (uploadFileInChunks 1 [10, 20] (fun _ => none) (fun _ => false) 0 2 2).sent.map
      (fun c => (c.contentRange, c.body)) =
      [("bytes 0-0/2", [10, 20]), ("bytes 1-1/2", [20])] := by decide

/-- The i-th full chunk the stream driver cuts when the stream delivers its
payload in events smaller than the chunk size: bytes `[C*i, C*(i+1))` of the
payload, declared against the payload's length. -/
def streamCanonChunk (C : Nat) (payload : Bytes) (i : Nat) : SentChunk :=
  ⟨((C * i : Nat) : Int), ((C * (i + 1) : Nat) : Int), (payload.drop (C * i)).take C,
    (payload.length : Int),
    contentRangeHeader ((C * i : Nat) : Int) ((C * (i + 1) : Nat) : Int)
      (payload.length : Int)⟩

/-! ## Helper lemmas: drivers under a pre-set abort signal -/

lemma bufferRun_preAborted (chunkSize : Int) (view : Bytes) (srv : Nat → Option String)
    (sig : Nat → Bool) (start total : Int) (fuel : Nat) (ctx : String)
    (h : sig 0 = true) :
    (uploadBufferInChunks chunkSize view srv sig start total fuel).sent = [] ∧
      catchTopLevel (runToExcept (uploadBufferInChunks chunkSize view srv sig start total fuel))
        ctx = Except.ok () := by
  by_cases hlt : start < total
  · rw [uploadBufferInChunks, uploadBufferLoop.eq_def]
    simp [hlt, h, runToExcept, catchTopLevel]
  · rw [uploadBufferInChunks, uploadBufferLoop.eq_def]
    simp [hlt, runToExcept, catchTopLevel]

lemma blobRun_preAborted (chunkSize : Int) (blob : Bytes) (srv : Nat → Option String)
    (sig : Nat → Bool) (start total : Int) (fuel : Nat) (ctx : String)
    (h : sig 0 = true) :
    (uploadBlobInChunks chunkSize blob srv sig start total fuel).sent = [] ∧
      catchTopLevel (runToExcept (uploadBlobInChunks chunkSize blob srv sig start total fuel))
        ctx = Except.ok () := by
  by_cases hlt : start < total
  · rw [uploadBlobInChunks, uploadBlobLoop.eq_def]
    simp [hlt, h, runToExcept, catchTopLevel]
  · rw [uploadBlobInChunks, uploadBlobLoop.eq_def]
    simp [hlt, runToExcept, catchTopLevel]

lemma fileRun_preAborted (chunkSize : Int) (file : Bytes) (srv : Nat → Option String)
    (sig : Nat → Bool) (start total : Int) (fuel : Nat) (ctx : String)
    (h : sig 0 = true) :
    (uploadFileInChunks chunkSize file srv sig start total fuel).sent = [] ∧
      catchTopLevel (runToExcept (uploadFileInChunks chunkSize file srv sig start total fuel))
        ctx = Except.ok () := by
  by_cases hlt : start < total
  · rw [uploadFileInChunks, uploadFileLoop.eq_def]
    simp [hlt, h, runToExcept, catchTopLevel]
  · rw [uploadFileInChunks, uploadFileLoop.eq_def]
    simp [hlt, runToExcept, catchTopLevel]

lemma streamRun_preAborted (chunkSize : Int) (events : List Bytes)
    (srv : Nat → Option String) (sigEnd : Bool) (start total : Int) (ctx : String) :
    (uploadStreamInChunks chunkSize events srv true sigEnd start total).st.sent = [] ∧
      catchTopLevel (uploadStreamInChunks chunkSize events srv true sigEnd start total).result
        ctx = Except.ok () := by
  simp [uploadStreamInChunks, catchTopLevel]

/-- C5 (counterexample). A signal that is already set before any chunk is
sent is observed by the TRANSPORT: axios rejects the session-creation
request with its `CanceledError` (message `canceled`), which is NOT an
instance of the client's `AbortError` class, so the catch blocks wrap and
rethrow it — `upload` REJECTS (`Upload failed: Session creation failed:
canceled`) instead of returning successfully. -/
theorem c5_counterexample_transport_cancellation :
    upload 1 "e" (Except.error axiosCanceledError) (Uploadable.bufferData [1]) 1
        (fun _ => none) (fun _ => true) true false 5 =
      (Except.error (JsError.error "Upload failed: Session creation failed: canceled"),
        []) ∧
    (Except.error (JsError.error "Upload failed: Session creation failed: canceled") :
        Except JsError Unit) ≠ Except.ok () := by
  refine ⟨rfl, by decide⟩

/-- C5 (amended). Cancellation observed by the client's OWN checks — the
pull drivers' loop-top `signal?.aborted` test and the stream driver's
initial check — throws the client's `AbortError`, which `upload`,
`resumeUpload` and `fileUpload` swallow into a successful return with no
chunk PUT issued, for every source shape (first conjunct). But cancellation
observed by the TRANSPORT — a signal already set when the session-creation
(`upload`, `fileUpload`) or status-query (`resumeUpload`) request is issued
makes axios reject that request with `CanceledError`, which is not an
`AbortError` — is wrapped and rethrown: the top-level call rejects, having
issued no chunk PUT (second conjunct). -/
theorem c5_amended_cancellation_paths :
    (∀ (chunkSize : Int) (endpoint : String)
        (createResp : Except JsError CreateResponse) (sess : CreateSession)
        (data : Uploadable) (totalSize : Int) (srv : Nat → Option String)
        (sig : Nat → Bool) (sigEnd : Bool) (fuel : Nat) (statusRng : Option String)
        (filePath : String) (file : Bytes) (metaSize : Int),
      createUpload endpoint createResp = Except.ok sess → sig 0 = true →
      upload chunkSize endpoint createResp data totalSize srv sig true sigEnd fuel =
          (Except.ok (), []) ∧
        resumeUpload chunkSize (Except.ok statusRng) data totalSize srv sig true sigEnd
          fuel = (Except.ok (), []) ∧
        fileUpload chunkSize endpoint filePath createResp file metaSize srv sig fuel =
          (Except.ok (), [])) ∧
    (∀ (chunkSize : Int) (endpoint : String) (data : Uploadable) (totalSize : Int)
        (srv : Nat → Option String) (sig : Nat → Bool) (sig0 sigEnd : Bool) (fuel : Nat)
        (filePath : String) (file : Bytes) (metaSize : Int),
      upload chunkSize endpoint (Except.error axiosCanceledError) data totalSize srv sig
          sig0 sigEnd fuel =
        (Except.error
            (JsError.error "Upload failed: Session creation failed: canceled"), []) ∧
      resumeUpload chunkSize (Except.error axiosCanceledError) data totalSize srv sig
          sig0 sigEnd fuel =
        (Except.error (JsError.error "Upload failed: canceled"), []) ∧
      fileUpload chunkSize endpoint filePath (Except.error axiosCanceledError) file
          metaSize srv sig fuel =
        (Except.error (JsError.error ("File upload failed for " ++ filePath ++
          ": Session creation failed: canceled")), [])) := by
  constructor
  · intro chunkSize endpoint createResp sess data totalSize srv sig sigEnd fuel
      statusRng filePath file metaSize hcreate hsig
    refine ⟨?_, ?_, ?_⟩
    · simp only [upload, hcreate]
      cases data with
      | blobData b =>
        have h := blobRun_preAborted chunkSize b srv sig sess.uploadedBytes totalSize fuel
          "Upload failed" hsig
        simp [h.1, h.2]
      | streamData events =>
        have h := streamRun_preAborted chunkSize events srv sigEnd sess.uploadedBytes
          totalSize "Upload failed"
        simp [h.1, h.2]
      | bufferData b =>
        have h := bufferRun_preAborted chunkSize b srv sig sess.uploadedBytes totalSize
          fuel "Upload failed" hsig
        simp [h.1, h.2]
    · simp only [resumeUpload, getUploadStatus]
      cases data with
      | blobData b =>
        have h := blobRun_preAborted chunkSize b srv sig (parseRangeHeader statusRng)
          totalSize fuel "Upload failed" hsig
        simp [h.1, h.2]
      | streamData events =>
        have h := streamRun_preAborted chunkSize events srv sigEnd
          (parseRangeHeader statusRng) totalSize "Upload failed"
        simp [h.1, h.2]
      | bufferData b =>
        have h := bufferRun_preAborted chunkSize b srv sig (parseRangeHeader statusRng)
          totalSize fuel "Upload failed" hsig
        simp [h.1, h.2]
    · simp only [fileUpload, hcreate]
      have h := fileRun_preAborted chunkSize file srv sig sess.uploadedBytes metaSize
        fuel ("File upload failed for " ++ filePath) hsig
      simp [h.1, h.2]
  · intro chunkSize endpoint data totalSize srv sig sig0 sigEnd fuel filePath file
      metaSize
    refine ⟨rfl, rfl, ?_⟩
    simp only [fileUpload, createUpload, axiosCanceledError, handleError, catchTopLevel]
    rw [Prod.mk.injEq]
    constructor
    · rw [Except.error.injEq, JsError.error.injEq]
      simp [String.append_assoc]
    · rfl

/-- Witness for C5 (amended): a session response with a location header, a
one-byte buffer, and a signal already set at the driver's first own check. -/
theorem c5_amended_cancellation_paths_witness :
    createUpload "e" (Except.ok ⟨some "u", none⟩) = Except.ok ⟨"u", 0⟩ ∧
    (fun _ : Nat => true) 0 = true ∧
    upload 1 "e" (Except.ok ⟨some "u", none⟩) (Uploadable.bufferData [1]) 1
      (fun _ => none) (fun _ => true) true false 5 = (Except.ok (), []) :=
  ⟨rfl, rfl,
    (c5_amended_cancellation_paths.1 1 "e" (Except.ok ⟨some "u", none⟩) ⟨"u", 0⟩
      (Uploadable.bufferData [1]) 1 (fun _ => none) (fun _ => true) false 5
      none "p" [] 0 rfl rfl).1⟩

/-- C7 (code bug, evaluated at the failing input). `abort()` replaces
`this.abortController`, but the axios instance captured the constructor-time
controller's signal ONCE (client.ts:78) and is never re-wired: before any
abort, a request without a per-call signal is not canceled; after one
`abort()` the replacement controller is un-aborted yet is NOT the controller
the axios instance references, so every NEW transfer issued without a
per-call signal carries the stale, already-aborted default signal and is
immediately canceled — contradicting the claim and the code's own comment
(`Create a new controller for future operations`, client.ts:106); and a
second `abort()` aborts controller 1, which no request references, leaving
the default signal aborted forever. -/
theorem c7_abort_leaves_stale_client_signal :
    defaultSignalAborted clientInit = false ∧
    (clientAbort clientInit).abortController ≠ (clientAbort clientInit).clientSignal ∧
    (clientAbort clientInit).store (clientAbort clientInit).abortController = false ∧
    defaultSignalAborted (clientAbort clientInit) = true ∧
    (clientAbort (clientAbort clientInit)).clientSignal = 0 ∧
    (clientAbort (clientAbort clientInit)).store 1 = true ∧
    defaultSignalAborted (clientAbort (clientAbort clientInit)) = true := by
  refine ⟨rfl, by decide, rfl, rfl, rfl, rfl, rfl⟩

/-- C8 (code bug, evaluated at the failing input). When the DELETE transport
call fails, `deleteUpload` RESOLVES successfully: the catch block builds the
wrapped error `Failed to delete upload: Network Error` with `handleError` but
never throws it. And `getUploadStatus` has no try/catch: its transport
failure propagates raw, with no context naming the status query —
`updateUpload`, by contrast, throws its wrapped error. -/
theorem c8_delete_swallows_status_unwrapped :
    deleteUpload (Except.error (JsError.error "Network Error")) = Except.ok () ∧
    handleError (JsError.error "Network Error") "Failed to delete upload" =
      JsError.error "Failed to delete upload: Network Error" ∧
    getUploadStatus (Except.error (JsError.error "Network Error")) =
      Except.error (JsError.error "Network Error") ∧
    updateUpload (Except.error (JsError.error "Network Error")) =
      Except.error (JsError.error "Failed to update metadata: Network Error") :=
  ⟨rfl, rfl, rfl, rfl⟩

/-- C6. A session-creation response without a location header makes
`createUpload` fail with the fatal `Session creation failed: Missing Location
header in response` error, and consequently every `upload` call — buffer,
blob or stream shaped — and every `fileUpload` call rejects (the error is not
an `AbortError`, so the catch block re-throws it wrapped), with no chunk PUT
issued. -/
theorem c6_missing_location_fails_all (chunkSize : Int) (endpoint : String)
    (rng : Option String) (data : Uploadable) (totalSize : Int)
    (srv : Nat → Option String) (sig : Nat → Bool) (sig0 sigEnd : Bool) (fuel : Nat)
    (filePath : String) (file : Bytes) (metaSize : Int) :
    createUpload endpoint (Except.ok ⟨none, rng⟩) =
      Except.error (JsError.error "Session creation failed: Missing Location header in response") ∧
    upload chunkSize endpoint (Except.ok ⟨none, rng⟩) data totalSize srv sig sig0 sigEnd fuel =
      (Except.error
        (JsError.error "Upload failed: Session creation failed: Missing Location header in response"),
        []) ∧
    fileUpload chunkSize endpoint filePath (Except.ok ⟨none, rng⟩) file metaSize srv sig fuel =
      (Except.error
        (JsError.error ("File upload failed for " ++ filePath ++
          ": Session creation failed: Missing Location header in response")),
        []) := by
  refine ⟨rfl, rfl, ?_⟩
  simp only [fileUpload, createUpload, handleError, catchTopLevel]
  rw [Prod.mk.injEq]
  constructor
  · rw [Except.error.injEq, JsError.error.injEq]
    simp [String.append_assoc]
  · rfl

/-- C4 (code bug, evaluated at the failing input). Chunk PUTs declare
`Content-Range: bytes start-(end-1)/total`, and the buffer driver's body is
exactly the declared half-open range; but the file driver passes its
EXCLUSIVE end to `createReadStream`'s INCLUSIVE `end` option, so the first
chunk of a 2-byte file with chunk size 1 declares `bytes 0-0/2` (one byte)
while its body is BOTH bytes. -/
theorem c4_file_chunk_off_by_one :
    (uploadFileInChunks 1 [10, 20] (fun _ => none) (fun _ => false) 0 2 2).sent.map
        (fun c => (c.contentRange, c.body)) =
      [("bytes 0-0/2", [10, 20]), ("bytes 1-1/2", [20])] ∧
    (uploadBufferInChunks 1 [10, 20] (fun _ => none) (fun _ => false) 0 2 2).sent.map
        (fun c => (c.contentRange, c.body)) =
      [("bytes 0-0/2", [10]), ("bytes 1-1/2", [20])] ∧
    fileReadWindow [10, 20] 0 1 = [10, 20] ∧ jsSlice [10, 20] 0 1 = [10] := by
  refine ⟨by decide, by decide, by decide, by decide⟩

/-! ## Lemmas about the range-header scanner -/

lemma takeWhile_digits_dash (a rest : List Char) (ha : ∀ c ∈ a, c.isDigit = true) :
    (a ++ '-' :: rest).takeWhile Char.isDigit = a := by
  induction a with
  | nil => simp [List.takeWhile]
  | cons x xs ih =>
    have hx : x.isDigit = true := ha x (List.mem_cons_self x xs)
    simp only [List.cons_append, List.takeWhile_cons, hx, if_true]
    rw [ih (fun c hc => ha c (List.mem_cons_of_mem x hc))]

lemma dropWhile_digits_dash (a rest : List Char) (ha : ∀ c ∈ a, c.isDigit = true) :
    (a ++ '-' :: rest).dropWhile Char.isDigit = '-' :: rest := by
  induction a with
  | nil => simp [List.dropWhile]
  | cons x xs ih =>
    have hx : x.isDigit = true := ha x (List.mem_cons_self x xs)
    simp only [List.cons_append, List.dropWhile_cons, hx, if_true]
    exact ih (fun c hc => ha c (List.mem_cons_of_mem x hc))

lemma takeWhile_digits_self (b : List Char) (hb : ∀ c ∈ b, c.isDigit = true) :
    b.takeWhile Char.isDigit = b := by
  induction b with
  | nil => rfl
  | cons x xs ih =>
    have hx : x.isDigit = true := hb x (List.mem_cons_self x xs)
    simp only [List.takeWhile_cons, hx, if_true]
    rw [ih (fun c hc => hb c (List.mem_cons_of_mem x hc))]

/-- C9 (counterexample). The claim says every header string not of the form
`bytes=<start>-<end>` maps to 0 acked bytes; but the code's regular
expression is unanchored, so `xbytes=1-2` — which is not of that form — maps
to 3, not 0. -/
theorem c9_counterexample_unanchored_match :
    parseRangeHeader (some "xbytes=1-2") = 3 ∧ (3 : Nat) ≠ 0 := by
  refine ⟨by decide, by decide⟩

/-- C9 (amended). An absent header maps to 0; a well-formed
`bytes=<start>-<end>` header maps to `end + 1` (`digitsVal` is the number the
captured digits denote); a header string with NO substring matching
`bytes=<digits>-<digits>` maps to 0 (a string merely containing such a
substring maps to the captured end + 1, as the counterexample shows); and
session creation, status query and chunk responses all read acked bytes
through this same parser. -/
theorem c9_amended_range_parsing :
    parseRangeHeader none = 0 ∧
    (∀ a b : List Char, a ≠ [] → b ≠ [] →
      (∀ c ∈ a, c.isDigit = true) → (∀ c ∈ b, c.isDigit = true) →
      parseRangeHeader
          (some (String.mk ('b' :: 'y' :: 't' :: 'e' :: 's' :: '=' :: (a ++ '-' :: b)))) =
        digitsVal b + 1) ∧
    (∀ s : String, findBytesMatch s.toList = none → parseRangeHeader (some s) = 0) ∧
    (∀ (endpoint loc : String) (rng : Option String),
      createUpload endpoint (Except.ok ⟨some loc, rng⟩) =
        Except.ok ⟨resolveUrl loc endpoint, parseRangeHeader rng⟩) ∧
    (∀ rng : Option String, getUploadStatus (Except.ok rng) = Except.ok (parseRangeHeader rng)) ∧
    (∀ (data : Bytes) (start stop total : Int) (rng : Option String),
      (uploadChunk data start stop total rng).2 = parseRangeHeader rng) := by
  refine ⟨rfl, ?_, ?_, fun _ _ _ => rfl, fun _ => rfl, fun _ _ _ _ _ => rfl⟩
  · intro a b hane hbne ha hb
    obtain ⟨x, xs, rfl⟩ := List.exists_cons_of_ne_nil hane
    simp only [parseRangeHeader, String.toList, findBytesMatch, matchBytesAt]
    rw [takeWhile_digits_dash _ _ ha, dropWhile_digits_dash _ _ ha]
    simp only [List.isEmpty_cons, Bool.false_eq_true, if_false]
    rw [takeWhile_digits_self b hb]
    obtain ⟨y, ys, rfl⟩ := List.exists_cons_of_ne_nil hbne
    simp
  · intro s h
    simp only [parseRangeHeader, h]

/-- Witness for C9 (amended) at a concrete header: `bytes=1-42` parses to 43. -/
theorem c9_amended_range_parsing_witness :
    (['1'] : List Char) ≠ [] ∧ (['4', '2'] : List Char) ≠ [] ∧
    parseRangeHeader
        (some (String.mk ('b' :: 'y' :: 't' :: 'e' :: 's' :: '=' :: (['1'] ++ '-' :: ['4', '2'])))) =
      43 :=
  ⟨by decide, by decide, by
    rw [c9_amended_range_parsing.2.1 ['1'] ['4', '2'] (by decide) (by decide)
      (by decide) (by decide)]
    decide⟩

/-! ## One-step unfolding lemmas for the three pull-driver loops -/

lemma uploadBufferLoop_eq (chunkSize total : Int) (view : Bytes)
    (srv : Nat → Option String) (sig : Nat → Bool) (fuel : Nat) (pos : Int) (k : Nat) :
    uploadBufferLoop chunkSize total view srv sig fuel pos k =
      if pos < total then
        if sig k then ⟨[], Outcome.aborted⟩
        else
          match fuel with
          | 0 => ⟨[], Outcome.fuelOut⟩
          | Nat.succ fuel' =>
            let stop := min (pos + chunkSize) total
            let sc := (uploadChunk (jsSlice view pos stop) pos stop total (srv k)).1
            let rest := uploadBufferLoop chunkSize total view srv sig fuel' stop (k + 1)
            ⟨sc :: rest.sent, rest.outcome⟩
      else ⟨[], Outcome.done pos⟩ := by
  cases fuel <;> rfl

lemma uploadBlobLoop_eq (chunkSize total : Int) (blob : Bytes)
    (srv : Nat → Option String) (sig : Nat → Bool) (fuel : Nat) (pos : Int) (k : Nat) :
    uploadBlobLoop chunkSize total blob srv sig fuel pos k =
      if pos < total then
        if sig k then ⟨[], Outcome.aborted⟩
        else
          match fuel with
          | 0 => ⟨[], Outcome.fuelOut⟩
          | Nat.succ fuel' =>
            let stop := min (pos + chunkSize) total
            let sc := (uploadChunk (jsSlice blob pos stop) pos stop total (srv k)).1
            let rest := uploadBlobLoop chunkSize total blob srv sig fuel' stop (k + 1)
            ⟨sc :: rest.sent, rest.outcome⟩
      else ⟨[], Outcome.done pos⟩ := by
  cases fuel <;> rfl

lemma uploadFileLoop_eq (chunkSize total : Int) (file : Bytes)
    (srv : Nat → Option String) (sig : Nat → Bool) (fuel : Nat) (pos : Int) (k : Nat) :
    uploadFileLoop chunkSize total file srv sig fuel pos k =
      if pos < total then
        if sig k then ⟨[], Outcome.aborted⟩
        else
          match fuel with
          | 0 => ⟨[], Outcome.fuelOut⟩
          | Nat.succ fuel' =>
            let stop := min (pos + chunkSize) total
            let res := uploadChunk (fileReadWindow file pos stop) pos stop total (srv k)
            let newPos := if (res.2 : Int) > stop then (res.2 : Int) else stop
            let rest := uploadFileLoop chunkSize total file srv sig fuel' newPos (k + 1)
            ⟨res.1 :: rest.sent, rest.outcome⟩
      else ⟨[], Outcome.done pos⟩ := by
  cases fuel <;> rfl

/-! ## Trace lemmas for the pull drivers: where consecutive chunks start -/

lemma bufferLoop_first_start (chunkSize total : Int) (view : Bytes)
    (srv : Nat → Option String) (sig : Nat → Bool) (fuel : Nat) (pos : Int) (k : Nat)
    (c : SentChunk)
    (h : (uploadBufferLoop chunkSize total view srv sig fuel pos k).sent[0]? = some c) :
    c.start = pos := by
  rw [uploadBufferLoop_eq] at h
  by_cases hlt : pos < total
  · rw [if_pos hlt] at h
    by_cases hs : sig k
    · rw [if_pos hs] at h
      simp at h
    · rw [if_neg hs] at h
      cases fuel with
      | zero => simp at h
      | succ fuel' =>
        simp only [List.getElem?_cons_zero, Option.some.injEq] at h
        rw [← h]
        rfl
  · rw [if_neg hlt] at h
    simp at h

lemma blobLoop_first_start (chunkSize total : Int) (blob : Bytes)
    (srv : Nat → Option String) (sig : Nat → Bool) (fuel : Nat) (pos : Int) (k : Nat)
    (c : SentChunk)
    (h : (uploadBlobLoop chunkSize total blob srv sig fuel pos k).sent[0]? = some c) :
    c.start = pos := by
  rw [uploadBlobLoop_eq] at h
  by_cases hlt : pos < total
  · rw [if_pos hlt] at h
    by_cases hs : sig k
    · rw [if_pos hs] at h
      simp at h
    · rw [if_neg hs] at h
      cases fuel with
      | zero => simp at h
      | succ fuel' =>
        simp only [List.getElem?_cons_zero, Option.some.injEq] at h
        rw [← h]
        rfl
  · rw [if_neg hlt] at h
    simp at h

lemma fileLoop_first_start (chunkSize total : Int) (file : Bytes)
    (srv : Nat → Option String) (sig : Nat → Bool) (fuel : Nat) (pos : Int) (k : Nat)
    (c : SentChunk)
    (h : (uploadFileLoop chunkSize total file srv sig fuel pos k).sent[0]? = some c) :
    c.start = pos := by
  rw [uploadFileLoop_eq] at h
  by_cases hlt : pos < total
  · rw [if_pos hlt] at h
    by_cases hs : sig k
    · rw [if_pos hs] at h
      simp at h
    · rw [if_neg hs] at h
      cases fuel with
      | zero => simp at h
      | succ fuel' =>
        simp only [List.getElem?_cons_zero, Option.some.injEq] at h
        rw [← h]
        rfl
  · rw [if_neg hlt] at h
    simp at h

lemma bufferLoop_consec (chunkSize total : Int) (view : Bytes)
    (srv : Nat → Option String) (sig : Nat → Bool) :
    ∀ (fuel : Nat) (pos : Int) (k i : Nat) (c c' : SentChunk),
      (uploadBufferLoop chunkSize total view srv sig fuel pos k).sent[i]? = some c →
      (uploadBufferLoop chunkSize total view srv sig fuel pos k).sent[i + 1]? = some c' →
      c'.start = c.stop := by
  intro fuel
  induction fuel with
  | zero =>
    intro pos k i c c' h1 _
    rw [uploadBufferLoop_eq] at h1
    by_cases hlt : pos < total
    · rw [if_pos hlt] at h1
      by_cases hs : sig k
      · rw [if_pos hs] at h1
        simp at h1
      · rw [if_neg hs] at h1
        simp at h1
    · rw [if_neg hlt] at h1
      simp at h1
  | succ fuel' ih =>
    intro pos k i c c' h1 h2
    rw [uploadBufferLoop_eq] at h1 h2
    by_cases hlt : pos < total
    · rw [if_pos hlt] at h1 h2
      by_cases hs : sig k
      · rw [if_pos hs] at h1
        simp at h1
      · rw [if_neg hs] at h1 h2
        cases i with
        | zero =>
          simp only [List.getElem?_cons_zero, Option.some.injEq] at h1
          simp only [List.getElem?_cons_succ] at h2
          have := bufferLoop_first_start chunkSize total view srv sig fuel'
            (min (pos + chunkSize) total) (k + 1) c' h2
          rw [this, ← h1]
          rfl
        | succ i' =>
          simp only [List.getElem?_cons_succ] at h1 h2
          exact ih (min (pos + chunkSize) total) (k + 1) i' c c' h1 h2
    · rw [if_neg hlt] at h1
      simp at h1

lemma blobLoop_consec (chunkSize total : Int) (blob : Bytes)
    (srv : Nat → Option String) (sig : Nat → Bool) :
    ∀ (fuel : Nat) (pos : Int) (k i : Nat) (c c' : SentChunk),
      (uploadBlobLoop chunkSize total blob srv sig fuel pos k).sent[i]? = some c →
      (uploadBlobLoop chunkSize total blob srv sig fuel pos k).sent[i + 1]? = some c' →
      c'.start = c.stop := by
  intro fuel
  induction fuel with
  | zero =>
    intro pos k i c c' h1 _
    rw [uploadBlobLoop_eq] at h1
    by_cases hlt : pos < total
    · rw [if_pos hlt] at h1
      by_cases hs : sig k
      · rw [if_pos hs] at h1
        simp at h1
      · rw [if_neg hs] at h1
        simp at h1
    · rw [if_neg hlt] at h1
      simp at h1
  | succ fuel' ih =>
    intro pos k i c c' h1 h2
    rw [uploadBlobLoop_eq] at h1 h2
    by_cases hlt : pos < total
    · rw [if_pos hlt] at h1 h2
      by_cases hs : sig k
      · rw [if_pos hs] at h1
        simp at h1
      · rw [if_neg hs] at h1 h2
        cases i with
        | zero =>
          simp only [List.getElem?_cons_zero, Option.some.injEq] at h1
          simp only [List.getElem?_cons_succ] at h2
          have := blobLoop_first_start chunkSize total blob srv sig fuel'
            (min (pos + chunkSize) total) (k + 1) c' h2
          rw [this, ← h1]
          rfl
        | succ i' =>
          simp only [List.getElem?_cons_succ] at h1 h2
          exact ih (min (pos + chunkSize) total) (k + 1) i' c c' h1 h2
    · rw [if_neg hlt] at h1
      simp at h1

lemma fileLoop_consec (chunkSize total : Int) (file : Bytes)
    (srv : Nat → Option String) (sig : Nat → Bool) :
    ∀ (fuel : Nat) (pos : Int) (k i : Nat) (c c' : SentChunk),
      (uploadFileLoop chunkSize total file srv sig fuel pos k).sent[i]? = some c →
      (uploadFileLoop chunkSize total file srv sig fuel pos k).sent[i + 1]? = some c' →
      c'.start =
        (if (parseRangeHeader (srv (k + i)) : Int) > c.stop
          then (parseRangeHeader (srv (k + i)) : Int) else c.stop) := by
  intro fuel
  induction fuel with
  | zero =>
    intro pos k i c c' h1 _
    rw [uploadFileLoop_eq] at h1
    by_cases hlt : pos < total
    · rw [if_pos hlt] at h1
      by_cases hs : sig k
      · rw [if_pos hs] at h1
        simp at h1
      · rw [if_neg hs] at h1
        simp at h1
    · rw [if_neg hlt] at h1
      simp at h1
  | succ fuel' ih =>
    intro pos k i c c' h1 h2
    rw [uploadFileLoop_eq] at h1 h2
    by_cases hlt : pos < total
    · rw [if_pos hlt] at h1 h2
      by_cases hs : sig k
      · rw [if_pos hs] at h1
        simp at h1
      · rw [if_neg hs] at h1 h2
        cases i with
        | zero =>
          simp only [List.getElem?_cons_zero, Option.some.injEq] at h1
          simp only [List.getElem?_cons_succ] at h2
          have := fileLoop_first_start chunkSize total file srv sig fuel' _ (k + 1) c' h2
          rw [this, ← h1]
          simp only [Nat.add_zero]
          rfl
        | succ i' =>
          simp only [List.getElem?_cons_succ] at h1 h2
          have := ih _ (k + 1) i' c c' h1 h2
          rw [this]
          have harith : k + 1 + i' = k + (i' + 1) := by omega
          rw [harith]
    · rw [if_neg hlt] at h1
      simp at h1

/-- C1 (counterexample). With chunk size 1, total 2 and a server that acks
nothing (`range` header absent, hence 0 acked — fewer than the declared end
1), the buffer driver's (and the file driver's) next chunk starts at the
declared end 1, NOT at the server's acked offset 0: the position advances
past what the server confirmed and the bytes of `[0, 1)` are never resent. -/
theorem c1_counterexample_advances_past_ack :
    parseRangeHeader none = 0 ∧
    (uploadBufferInChunks 1 [7, 8] (fun _ => none) (fun _ => false) 0 2 2).sent.map
      (fun c => (c.start, c.stop)) = [(0, 1), (1, 2)] ∧
    (uploadFileInChunks 1 [7, 8] (fun _ => none) (fun _ => false) 0 2 2).sent.map
      (fun c => (c.start, c.stop)) = [(0, 1), (1, 2)] ∧
    ((0 : Int) < 1 ∧ (1 : Int) ≠ 0) := by
  refine ⟨by decide, by decide, by decide, by decide, by decide⟩

/-- C1 (amended). When the server acks fewer bytes than (or exactly) a
chunk's declared end, the next chunk starts at the DECLARED END, not at the
acked offset: the buffer and blob drivers advance `position = end`
unconditionally (their loops never read the acked count), and the file
driver does so whenever the acked count does not exceed the declared end.
The unacknowledged tail is therefore not resent. -/
theorem c1_amended_underack_not_resent (chunkSize total : Int) (view blob file : Bytes)
    (srv : Nat → Option String) (sig : Nat → Bool) (start : Int) (fuel : Nat)
    (i : Nat) (c c' : SentChunk) :
    ((uploadBufferInChunks chunkSize view srv sig start total fuel).sent[i]? = some c →
      (uploadBufferInChunks chunkSize view srv sig start total fuel).sent[i + 1]? = some c' →
      c'.start = c.stop) ∧
    ((uploadBlobInChunks chunkSize blob srv sig start total fuel).sent[i]? = some c →
      (uploadBlobInChunks chunkSize blob srv sig start total fuel).sent[i + 1]? = some c' →
      c'.start = c.stop) ∧
    ((uploadFileInChunks chunkSize file srv sig start total fuel).sent[i]? = some c →
      (uploadFileInChunks chunkSize file srv sig start total fuel).sent[i + 1]? = some c' →
      (parseRangeHeader (srv i) : Int) ≤ c.stop →
      c'.start = c.stop) := by
  refine ⟨?_, ?_, ?_⟩
  · intro h1 h2
    exact bufferLoop_consec chunkSize total view srv sig fuel start 0 i c c' h1 h2
  · intro h1 h2
    exact blobLoop_consec chunkSize total blob srv sig fuel start 0 i c c' h1 h2
  · intro h1 h2 hle
    have h := fileLoop_consec chunkSize total file srv sig fuel start 0 i c c' h1 h2
    simp only [Nat.zero_add] at h
    rw [h, if_neg (by omega)]

/-- Witness for C1 (amended) on the buffer driver with a never-acking
server: the second chunk starts exactly at the first chunk's declared end. -/
theorem c1_amended_underack_not_resent_witness :
    (uploadBufferInChunks 1 [7, 8] (fun _ => none) (fun _ => false) 0 2 2).sent[0]? =
      some ⟨0, 1, [7], 2, "bytes 0-0/2"⟩ ∧
    (uploadBufferInChunks 1 [7, 8] (fun _ => none) (fun _ => false) 0 2 2).sent[1]? =
      some ⟨1, 2, [8], 2, "bytes 1-1/2"⟩ ∧
    (⟨1, 2, [8], 2, "bytes 1-1/2"⟩ : SentChunk).start =
      (⟨0, 1, [7], 2, "bytes 0-0/2"⟩ : SentChunk).stop :=
  ⟨by decide, by decide,
    (c1_amended_underack_not_resent 1 2 [7, 8] [] [] (fun _ => none) (fun _ => false)
      0 2 0 ⟨0, 1, [7], 2, "bytes 0-0/2"⟩ ⟨1, 2, [8], 2, "bytes 1-1/2"⟩).1
      (by decide) (by decide)⟩

/-- C3 (counterexample). The blob driver does NOT perform the
`ackedBytes > position` advance: with chunk size 1, total 2 and a first-chunk
response acking 2 bytes (more than the declared end 1), the blob driver still
sends a second chunk starting at 1, resending the overlapped range `[1, 2)`. -/
theorem c3_counterexample_blob_ignores_overack :
    parseRangeHeader (some "bytes=0-1") = 2 ∧
    (uploadBlobInChunks 1 [7, 8] (fun k => if k = 0 then some "bytes=0-1" else none)
        (fun _ => false) 0 2 2).sent.map (fun c => (c.start, c.stop, c.body)) =
      [(0, 1, [7]), (1, 2, [8])] ∧
    ((1 : Int) ≠ 2 ∧ (2 : Int) > 1) := by
  refine ⟨by decide, by decide, by decide, by decide⟩

/-- C3 (amended). Only the FILE driver advances its position to a larger
acked value: when a chunk response acks more than the declared end, the file
driver's next chunk starts at the acked value; the buffer and blob drivers
ignore the acked count entirely and always start the next chunk at the
previous declared end, resending any overlap. -/
theorem c3_amended_only_file_advances (chunkSize total : Int) (view blob file : Bytes)
    (srv : Nat → Option String) (sig : Nat → Bool) (start : Int) (fuel : Nat)
    (i : Nat) (c c' : SentChunk) :
    ((uploadFileInChunks chunkSize file srv sig start total fuel).sent[i]? = some c →
      (uploadFileInChunks chunkSize file srv sig start total fuel).sent[i + 1]? = some c' →
      (parseRangeHeader (srv i) : Int) > c.stop →
      c'.start = (parseRangeHeader (srv i) : Int)) ∧
    ((uploadBufferInChunks chunkSize view srv sig start total fuel).sent[i]? = some c →
      (uploadBufferInChunks chunkSize view srv sig start total fuel).sent[i + 1]? = some c' →
      c'.start = c.stop) ∧
    ((uploadBlobInChunks chunkSize blob srv sig start total fuel).sent[i]? = some c →
      (uploadBlobInChunks chunkSize blob srv sig start total fuel).sent[i + 1]? = some c' →
      c'.start = c.stop) := by
  refine ⟨?_, ?_, ?_⟩
  · intro h1 h2 hgt
    have h := fileLoop_consec chunkSize total file srv sig fuel start 0 i c c' h1 h2
    simp only [Nat.zero_add] at h
    rw [h, if_pos hgt]
  · intro h1 h2
    exact bufferLoop_consec chunkSize total view srv sig fuel start 0 i c c' h1 h2
  · intro h1 h2
    exact blobLoop_consec chunkSize total blob srv sig fuel start 0 i c c' h1 h2

/-- Witness for C3 (amended) on the file driver: a first-chunk response
acking 2 bytes (more than the declared end 1) makes the next chunk start at
2 — the overlapped range is skipped. -/
theorem c3_amended_only_file_advances_witness :
    (uploadFileInChunks 1 [7, 8, 9] (fun k => if k = 0 then some "bytes=0-1" else none)
        (fun _ => false) 0 3 3).sent[0]? = some ⟨0, 1, [7, 8], 3, "bytes 0-0/3"⟩ ∧
    (uploadFileInChunks 1 [7, 8, 9] (fun k => if k = 0 then some "bytes=0-1" else none)
        (fun _ => false) 0 3 3).sent[1]? = some ⟨2, 3, [9], 3, "bytes 2-2/3"⟩ ∧
    (⟨2, 3, [9], 3, "bytes 2-2/3"⟩ : SentChunk).start = (2 : Int) :=
  ⟨by decide, by decide,
    (c3_amended_only_file_advances 1 3 [] [] [7, 8, 9]
      (fun k => if k = 0 then some "bytes=0-1" else none) (fun _ => false) 0 3 0
      ⟨0, 1, [7, 8], 3, "bytes 0-0/3"⟩ ⟨2, 3, [9], 3, "bytes 2-2/3"⟩).1
      (by decide) (by decide) (by decide)⟩

/-! ## Termination of the pull-driver loops -/

lemma ceilDiv_of_zero (c : Nat) (hc : 1 ≤ c) : ceilDiv 0 c = 0 := by
  unfold ceilDiv
  exact Nat.div_eq_of_lt (by omega)

lemma ceilDiv_step (a c : Nat) (ha : 1 ≤ a) (hc : 1 ≤ c) :
    ceilDiv a c = ceilDiv (a - c) c + 1 := by
  unfold ceilDiv
  have key : a + c - 1 = a - 1 + c := by omega
  rw [key, Nat.add_div_right _ (by omega)]
  rcases le_or_lt a c with h | h
  · have h0 : a - c = 0 := by omega
    rw [h0]
    rw [Nat.div_eq_of_lt (by omega), Nat.div_eq_of_lt (by omega)]
  · have h1 : a - c + c - 1 = a - c - 1 + c := by omega
    rw [h1, Nat.add_div_right _ (by omega)]
    have h2 : a - 1 = a - c - 1 + c := by omega
    rw [h2, Nat.add_div_right _ (by omega)]

lemma ceilDiv_pos (a c : Nat) (ha : 1 ≤ a) (hc : 1 ≤ c) : 1 ≤ ceilDiv a c := by
  unfold ceilDiv
  rw [Nat.le_div_iff_mul_le (by omega)]
  omega

lemma jsSlice_length (b : Bytes) (start stop : Int) (h0 : 0 ≤ start)
    (h1 : start ≤ stop) (h2 : stop ≤ (b.length : Int)) :
    (jsSlice b start stop).length = (stop - start).toNat := by
  unfold jsSlice jsIndex
  rw [if_neg (by omega), if_neg (by omega)]
  simp only [List.length_drop, List.length_take]
  omega

lemma fileReadWindow_length (file : Bytes) (start stop : Int) :
    (fileReadWindow file start stop).length =
      min (stop.toNat + 1) file.length - start.toNat := by
  unfold fileReadWindow
  simp only [List.length_drop, List.length_take]

lemma sumBodies_nil : sumBodies [] = 0 := rfl

lemma sumBodies_cons (c : SentChunk) (l : List SentChunk) :
    sumBodies (c :: l) = c.body.length + sumBodies l := by
  simp [sumBodies]

/-! ## Chunk counting for the pull drivers (server acking at most what was sent) -/

lemma bufferLoop_count (chunkSize total : Int) (view : Bytes) (srv : Nat → Option String)
    (hC : 1 ≤ chunkSize) :
    ∀ (fuel : Nat) (pos : Int) (k : Nat), 0 ≤ pos → pos ≤ total →
      (total - pos).toNat ≤ fuel →
      (uploadBufferLoop chunkSize total view srv (fun _ => false) fuel pos k).outcome =
          Outcome.done total ∧
      (uploadBufferLoop chunkSize total view srv (fun _ => false) fuel pos k).sent.length =
          ceilDiv (total - pos).toNat chunkSize.toNat ∧
      ((view.length : Int) = total →
        sumBodies (uploadBufferLoop chunkSize total view srv (fun _ => false) fuel pos k).sent =
          (total - pos).toNat) := by
  intro fuel
  induction fuel with
  | zero =>
    intro pos k h0 h1 hf
    have hpt : pos = total := by omega
    rw [uploadBufferLoop_eq, if_neg (by omega)]
    refine ⟨by rw [hpt], ?_, fun _ => ?_⟩
    · rw [show (total - pos).toNat = 0 by omega]
      rw [ceilDiv_of_zero _ (by omega)]
      rfl
    · rw [show (total - pos).toNat = 0 by omega]
      rfl
  | succ fuel' ih =>
    intro pos k h0 h1 hf
    by_cases hlt : pos < total
    · rw [uploadBufferLoop_eq, if_pos hlt, if_neg (by simp)]
      have hstop1 : pos + 1 ≤ min (pos + chunkSize) total := by omega
      have hstop2 : min (pos + chunkSize) total ≤ total := by omega
      have ihs := ih (min (pos + chunkSize) total) (k + 1) (by omega) hstop2 (by omega)
      refine ⟨?_, ?_, fun hv => ?_⟩
      · exact ihs.1
      · show _ + 1 = _
        rw [ihs.2.1]
        rw [ceilDiv_step (total - pos).toNat chunkSize.toNat (by omega) (by omega)]
        have harg : (total - min (pos + chunkSize) total).toNat =
            (total - pos).toNat - chunkSize.toNat := by omega
        rw [harg]
      · rw [sumBodies_cons, ihs.2.2 hv]
        have hb : (jsSlice view pos (min (pos + chunkSize) total)).length =
            (min (pos + chunkSize) total - pos).toNat :=
          jsSlice_length view pos (min (pos + chunkSize) total) h0 (by omega) (by omega)
        have hbody : (uploadChunk (jsSlice view pos (min (pos + chunkSize) total)) pos
            (min (pos + chunkSize) total) total (srv k)).1.body =
            jsSlice view pos (min (pos + chunkSize) total) := rfl
        rw [hbody, hb]
        omega
    · have hpt : pos = total := by omega
      rw [uploadBufferLoop_eq, if_neg (by omega)]
      refine ⟨by rw [hpt], ?_, fun _ => ?_⟩
      · rw [show (total - pos).toNat = 0 by omega]
        rw [ceilDiv_of_zero _ (by omega)]
        rfl
      · rw [show (total - pos).toNat = 0 by omega]
        rfl

lemma blobLoop_count (chunkSize total : Int) (blob : Bytes) (srv : Nat → Option String)
    (hC : 1 ≤ chunkSize) :
    ∀ (fuel : Nat) (pos : Int) (k : Nat), 0 ≤ pos → pos ≤ total →
      (total - pos).toNat ≤ fuel →
      (uploadBlobLoop chunkSize total blob srv (fun _ => false) fuel pos k).outcome =
          Outcome.done total ∧
      (uploadBlobLoop chunkSize total blob srv (fun _ => false) fuel pos k).sent.length =
          ceilDiv (total - pos).toNat chunkSize.toNat ∧
      ((blob.length : Int) = total →
        sumBodies (uploadBlobLoop chunkSize total blob srv (fun _ => false) fuel pos k).sent =
          (total - pos).toNat) := by
  intro fuel
  induction fuel with
  | zero =>
    intro pos k h0 h1 hf
    have hpt : pos = total := by omega
    rw [uploadBlobLoop_eq, if_neg (by omega)]
    refine ⟨by rw [hpt], ?_, fun _ => ?_⟩
    · rw [show (total - pos).toNat = 0 by omega]
      rw [ceilDiv_of_zero _ (by omega)]
      rfl
    · rw [show (total - pos).toNat = 0 by omega]
      rfl
  | succ fuel' ih =>
    intro pos k h0 h1 hf
    by_cases hlt : pos < total
    · rw [uploadBlobLoop_eq, if_pos hlt, if_neg (by simp)]
      have hstop1 : pos + 1 ≤ min (pos + chunkSize) total := by omega
      have hstop2 : min (pos + chunkSize) total ≤ total := by omega
      have ihs := ih (min (pos + chunkSize) total) (k + 1) (by omega) hstop2 (by omega)
      refine ⟨?_, ?_, fun hv => ?_⟩
      · exact ihs.1
      · show _ + 1 = _
        rw [ihs.2.1]
        rw [ceilDiv_step (total - pos).toNat chunkSize.toNat (by omega) (by omega)]
        have harg : (total - min (pos + chunkSize) total).toNat =
            (total - pos).toNat - chunkSize.toNat := by omega
        rw [harg]
      · rw [sumBodies_cons, ihs.2.2 hv]
        have hb : (jsSlice blob pos (min (pos + chunkSize) total)).length =
            (min (pos + chunkSize) total - pos).toNat :=
          jsSlice_length blob pos (min (pos + chunkSize) total) h0 (by omega) (by omega)
        have hbody : (uploadChunk (jsSlice blob pos (min (pos + chunkSize) total)) pos
            (min (pos + chunkSize) total) total (srv k)).1.body =
            jsSlice blob pos (min (pos + chunkSize) total) := rfl
        rw [hbody, hb]
        omega
    · have hpt : pos = total := by omega
      rw [uploadBlobLoop_eq, if_neg (by omega)]
      refine ⟨by rw [hpt], ?_, fun _ => ?_⟩
      · rw [show (total - pos).toNat = 0 by omega]
        rw [ceilDiv_of_zero _ (by omega)]
        rfl
      · rw [show (total - pos).toNat = 0 by omega]
        rfl

lemma fileLoop_count (chunkSize total : Int) (file : Bytes) (srv : Nat → Option String)
    (hC : 1 ≤ chunkSize) (htot : 0 ≤ total)
    (hack : ∀ j : Nat,
      (parseRangeHeader (srv j) : Int) ≤ min (chunkSize * ((j : Int) + 1)) total) :
    ∀ (fuel : Nat) (q : Nat),
      (total - min (chunkSize * (q : Int)) total).toNat ≤ fuel →
      (uploadFileLoop chunkSize total file srv (fun _ => false) fuel
          (min (chunkSize * (q : Int)) total) q).outcome = Outcome.done total ∧
      (uploadFileLoop chunkSize total file srv (fun _ => false) fuel
          (min (chunkSize * (q : Int)) total) q).sent.length =
        ceilDiv (total - min (chunkSize * (q : Int)) total).toNat chunkSize.toNat ∧
      ((file.length : Int) = total →
        sumBodies (uploadFileLoop chunkSize total file srv (fun _ => false) fuel
            (min (chunkSize * (q : Int)) total) q).sent =
          (total - min (chunkSize * (q : Int)) total).toNat +
            (ceilDiv (total - min (chunkSize * (q : Int)) total).toNat chunkSize.toNat - 1)) := by
  intro fuel
  induction fuel with
  | zero =>
    intro q hf
    set pos := min (chunkSize * (q : Int)) total with hposdef
    have h1 : pos ≤ total := min_le_right _ _
    have hpt : pos = total := by omega
    rw [uploadFileLoop_eq, if_neg (by omega)]
    refine ⟨by rw [hpt], ?_, fun _ => ?_⟩
    · rw [show (total - pos).toNat = 0 by omega]
      rw [ceilDiv_of_zero _ (by omega)]
      rfl
    · rw [show (total - pos).toNat = 0 by omega]
      rw [ceilDiv_of_zero _ (by omega)]
      rfl
  | succ fuel' ih =>
    intro q hf
    set pos := min (chunkSize * (q : Int)) total with hposdef
    have h1 : pos ≤ total := min_le_right _ _
    by_cases hlt : pos < total
    · have hq0 : (0 : Int) ≤ chunkSize * (q : Int) :=
        mul_nonneg (by omega) (Int.natCast_nonneg q)
      have h0 : 0 ≤ pos := le_min hq0 htot
      have hqlt : chunkSize * (q : Int) < total := by
        rcases min_lt_iff.mp hlt with h | h
        · exact h
        · omega
      have hpq : pos = chunkSize * (q : Int) := min_eq_left (le_of_lt hqlt)
      have hsucc : chunkSize * (q : Int) + chunkSize = chunkSize * (((q + 1 : Nat) : Int)) := by
        push_cast
        ring
      have hstopeq : min (pos + chunkSize) total =
          min (chunkSize * (((q + 1 : Nat) : Int))) total := by
        rw [hpq, hsucc]
      have hstop1 : pos + 1 ≤ min (pos + chunkSize) total := by omega
      have hstop2 : min (pos + chunkSize) total ≤ total := by omega
      have hackq : (parseRangeHeader (srv q) : Int) ≤ min (pos + chunkSize) total := by
        have := hack q
        rw [hstopeq]
        have hcast : ((q : Int) + 1) = (((q + 1 : Nat) : Int)) := by push_cast; ring
        rw [hcast] at this
        exact this
      rw [uploadFileLoop_eq, if_pos hlt, if_neg (by simp)]
      have hnojump :
          ¬((uploadChunk (fileReadWindow file pos (min (pos + chunkSize) total)) pos
              (min (pos + chunkSize) total) total (srv q)).2 : Int) >
            min (pos + chunkSize) total := by
        have h2 : ((uploadChunk (fileReadWindow file pos (min (pos + chunkSize) total)) pos
            (min (pos + chunkSize) total) total (srv q)).2 : Int) =
            (parseRangeHeader (srv q) : Int) := rfl
        rw [h2]
        omega
      have ihs := ih (q + 1) (by rw [← hstopeq]; omega)
      rw [← hstopeq] at ihs
      have harg : (total - min (pos + chunkSize) total).toNat =
          (total - pos).toNat - chunkSize.toNat := by omega
      have hstep := ceilDiv_step (total - pos).toNat chunkSize.toNat (by omega) (by omega)
      dsimp only
      rw [if_neg hnojump]
      refine ⟨ihs.1, ?_, fun hv => ?_⟩
      · simp only [List.length_cons]
        rw [ihs.2.1, harg, hstep]
      · rw [sumBodies_cons, ihs.2.2 hv]
        have hbody : (uploadChunk (fileReadWindow file pos (min (pos + chunkSize) total)) pos
            (min (pos + chunkSize) total) total (srv q)).1.body =
            fileReadWindow file pos (min (pos + chunkSize) total) := rfl
        rw [hbody, fileReadWindow_length, harg, hstep]
        by_cases hfin : min (pos + chunkSize) total = total
        · have hz : ceilDiv ((total - pos).toNat - chunkSize.toNat) chunkSize.toNat = 0 := by
            rw [show (total - pos).toNat - chunkSize.toNat = 0 by omega]
            exact ceilDiv_of_zero _ (by omega)
          rw [hz]
          omega
        · have hn' : 1 ≤ ceilDiv ((total - pos).toNat - chunkSize.toNat) chunkSize.toNat := by
            rw [← harg]
            exact ceilDiv_pos _ _ (by omega) (by omega)
          omega
    · have hpt : pos = total := by omega
      rw [uploadFileLoop_eq, if_neg (by omega)]
      refine ⟨by rw [hpt], ?_, fun _ => ?_⟩
      · rw [show (total - pos).toNat = 0 by omega]
        rw [ceilDiv_of_zero _ (by omega)]
        rfl
      · rw [show (total - pos).toNat = 0 by omega]
        rw [ceilDiv_of_zero _ (by omega)]
        rfl

/-! ## The stream driver on a byte-at-a-time event schedule -/

lemma streamCutLoop_eq (chunkSize total : Int) (srv : Nat → Option String) (p : Int)
    (fuel : Nat) (chunks : List Bytes) (csize : Int) (k : Nat) :
    streamCutLoop chunkSize total srv p fuel chunks csize k =
      if chunkSize ≤ csize then
        match fuel with
        | 0 => ⟨chunks, csize, [], none, false⟩
        | Nat.succ fuel' =>
          let stop := min (p + chunkSize) total
          let buf := chunks.flatten
          let keep := jsSlice buf (stop - p) (buf.length : Int)
          let sc := (uploadChunk (jsSlice buf 0 (stop - p)) p stop total (srv k)).1
          let rest :=
            streamCutLoop chunkSize total srv p fuel' [keep]
              ((buf.length : Int) - (stop - p)) (k + 1)
          ⟨rest.chunks, rest.csize, sc :: rest.sent, some (rest.lastStop.getD stop),
            rest.fuelOk⟩
      else ⟨chunks, csize, [], none, true⟩ := by
  cases fuel <;> rfl

lemma flatten_map_single (l : Bytes) : (l.map (fun b => ([b] : Bytes))).flatten = l := by
  induction l with
  | nil => rfl
  | cons x xs ih => simp [ih]

lemma streamOnData_nocut (C : Nat) (total : Int) (srv : Nat → Option String)
    (st : StreamState) (q r : Nat) (x : Nat)
    (hsize : st.chunksSize = (r : Int)) (hlt : r + 1 < C) :
    streamOnData (C : Int) total srv st q [x] =
      (⟨st.position, st.chunks ++ [[x]], ((r + 1 : Nat) : Int), st.sent, st.ok⟩, q) := by
  simp only [streamOnData, hsize, List.length_cons, List.length_nil]
  rw [streamCutLoop_eq, if_neg (by push_cast; omega)]
  simp only [Option.getD_none, List.append_nil, Bool.and_true, Nat.add_zero]
  congr 1


lemma jsSlice_same (b : Bytes) (n : Int) : jsSlice b n n = [] := by
  unfold jsSlice
  apply List.drop_eq_nil_of_le
  rw [List.length_take]
  omega

lemma jsSlice_zero_len (b : Bytes) (n : Int) (h : n = (b.length : Int)) : jsSlice b 0 n = b := by
  unfold jsSlice jsIndex
  rw [if_neg (by omega), if_neg (by omega)]
  rw [show n.toNat = b.length by omega]
  rw [show ((0 : Int).toNat) = 0 from rfl]
  simp

lemma streamOnData_cut (C : Nat) (hC : 1 ≤ C) (payload : Bytes) (srv : Nat → Option String)
    (st : StreamState) (q r : Nat) (x : Nat)
    (hr : r + 1 = C) (hm1 : C * (q + 1) ≤ payload.length)
    (hx : payload[C * q + r]? = some x)
    (hpos : st.position = ((C * q : Nat) : Int))
    (hchunks : st.chunks = (if 1 ≤ q then [([] : Bytes)] else []) ++
      ((payload.drop (C * q)).take r).map (fun b => [b]))
    (hsize : st.chunksSize = (r : Int)) :
    streamOnData (C : Int) (payload.length : Int) srv st q [x] =
      (⟨((C * (q + 1) : Nat) : Int), [([] : Bytes)], 0,
        st.sent ++ [streamCanonChunk C payload q], st.ok⟩, q + 1) := by
  have hbuf : (st.chunks ++ [[x]]).flatten = (payload.drop (C * q)).take C := by
    rw [hchunks, List.flatten_append, List.flatten_append, flatten_map_single]
    have htail : ([[x]] : List Bytes).flatten = [x] := rfl
    rw [htail]
    have hget : (payload.drop (C * q))[r]? = some x := by
      rw [List.getElem?_drop]
      exact hx
    have htake := List.take_succ (l := payload.drop (C * q)) (n := r)
    rw [hget] at htake
    have hpre : (if 1 ≤ q then [([] : Bytes)] else []).flatten = ([] : Bytes) := by
      by_cases h : 1 ≤ q <;> simp [h]
    rw [hr] at htake
    rw [hpre, List.nil_append, htake]
    rfl
  have hdroplen : C ≤ (payload.drop (C * q)).length := by
    rw [List.length_drop]
    have : C * (q + 1) = C * q + C := by ring
    omega
  have hbuflen : ((st.chunks ++ [[x]]).flatten).length = C := by
    rw [hbuf, List.length_take]
    omega
  simp only [streamOnData, hsize, List.length_cons, List.length_nil]
  rw [streamCutLoop_eq, if_pos (by push_cast; omega)]
  dsimp only
  rw [hbuf]
  have hstop : (st.position + (C : Int)) ⊓ ((payload.length : Nat) : Int) =
      ((C * (q + 1) : Nat) : Int) := by
    rw [hpos]
    have h1 : ((C * q : Nat) : Int) + (C : Int) = ((C * (q + 1) : Nat) : Int) := by
      push_cast
      ring
    rw [h1]
    exact min_eq_left (by exact_mod_cast hm1)
  rw [hstop, hpos]
  have hdiff : ((C * (q + 1) : Nat) : Int) - ((C * q : Nat) : Int) = (C : Int) := by
    push_cast
    ring
  rw [hdiff]
  have hlen : ((payload.drop (C * q)).take C).length = C := by
    rw [List.length_take]
    omega
  rw [hlen]
  have hslice0 : jsSlice ((payload.drop (C * q)).take C) 0 (C : Int) =
      (payload.drop (C * q)).take C :=
    jsSlice_zero_len _ _ (by exact_mod_cast hlen.symm)
  have hkeep : jsSlice ((payload.drop (C * q)).take C) (C : Int) (C : Int) = ([] : Bytes) :=
    jsSlice_same _ _
  rw [hslice0, hkeep]
  have hrec : ∀ f : Nat,
      streamCutLoop (C : Int) ((payload.length : Nat) : Int) srv ((C * q : Nat) : Int) f
        [([] : Bytes)] ((C : Int) - (C : Int)) (q + 1) =
      ⟨[([] : Bytes)], (C : Int) - (C : Int), [], none, true⟩ := by
    intro f
    rw [streamCutLoop_eq, if_neg (by omega)]
  rw [hrec]
  simp only [Option.getD_none, Option.getD_some, sub_self, Bool.and_true,
    List.length_cons, List.length_nil, Nat.zero_add]
  rfl

lemma streamFold_canonical (C : Nat) (hC : 1 ≤ C) (payload : Bytes)
    (srv : Nat → Option String) :
    ∀ (suf : Bytes) (q r : Nat) (st : StreamState),
      r < C →
      C * q + r + suf.length = payload.length →
      suf = payload.drop (C * q + r) →
      st.position = ((C * q : Nat) : Int) →
      st.chunks = (if 1 ≤ q then [([] : Bytes)] else []) ++
        ((payload.drop (C * q)).take r).map (fun b => [b]) →
      st.chunksSize = (r : Int) →
      suf.foldl
          (fun stk b => streamOnData (C : Int) (payload.length : Int) srv stk.1 stk.2 [b])
          (st, q) =
        (⟨((C * (payload.length / C) : Nat) : Int),
          (if 1 ≤ payload.length / C then [([] : Bytes)] else []) ++
            ((payload.drop (C * (payload.length / C))).take (payload.length % C)).map
              (fun b => [b]),
          ((payload.length % C : Nat) : Int),
          st.sent ++ (List.range' q (payload.length / C - q)).map (streamCanonChunk C payload),
          st.ok⟩,
        payload.length / C) := by
  intro suf
  induction suf with
  | nil =>
    intro q r st hr hm hsuf hpos hchunks hsize
    simp only [List.length_nil, Nat.add_zero] at hm
    have hdiv : payload.length / C = q := by
      rw [← hm, Nat.mul_add_div (by omega), Nat.div_eq_of_lt hr, Nat.add_zero]
    have hmod : payload.length % C = r := by
      rw [← hm, Nat.mul_add_mod, Nat.mod_eq_of_lt hr]
    rw [List.foldl_nil, hdiv, hmod]
    rw [Nat.sub_self, show List.range' q 0 = [] from rfl, List.map_nil, List.append_nil]
    obtain ⟨pos0, ch0, cs0, se0, ok0⟩ := st
    simp only at hpos hchunks hsize
    rw [hpos, hchunks, hsize]
  | cons b suf' ih =>
    intro q r st hr hm hsuf hpos hchunks hsize
    have hmlt : C * q + r < payload.length := by
      simp only [List.length_cons] at hm
      omega
    have hb : payload[C * q + r]? = some b := by
      have h0 : (payload.drop (C * q + r))[0]? = some b := by
        rw [← hsuf]
        simp
      rw [List.getElem?_drop, Nat.add_zero] at h0
      exact h0
    have hsuf' : suf' = payload.drop (C * q + r + 1) := by
      have h1 : payload.drop (C * q + r + 1) = (payload.drop (C * q + r)).drop 1 := by
        rw [List.drop_drop]
      rw [h1, ← hsuf]
      rfl
    rw [List.foldl_cons]
    by_cases hcut : r + 1 = C
    · have hCq : C * (q + 1) = C * q + C := by ring
      have hm1 : C * (q + 1) ≤ payload.length := by
        simp only [List.length_cons] at hm
        omega
      rw [streamOnData_cut C hC payload srv st q r b hcut hm1 hb hpos hchunks hsize]
      have ihs := ih (q + 1) 0 ⟨((C * (q + 1) : Nat) : Int), [([] : Bytes)], 0,
          st.sent ++ [streamCanonChunk C payload q], st.ok⟩
        (by omega)
        (by simp only [List.length_cons] at hm; omega)
        (by rw [show C * (q + 1) + 0 = C * q + r + 1 by omega]; exact hsuf')
        rfl
        (by
          rw [if_pos (by omega), List.take_zero, List.map_nil, List.append_nil])
        rfl
      rw [ihs]
      have hqle : q + 1 ≤ payload.length / C := by
        rw [Nat.le_div_iff_mul_le (by omega : 0 < C), Nat.mul_comm]
        exact hm1
      rw [Prod.mk.injEq]
      refine ⟨?_, rfl⟩
      congr 1
      rw [List.append_assoc, List.singleton_append]
      congr 1
      rw [show payload.length / C - q = (payload.length / C - (q + 1)) + 1 by omega]
      rw [List.range'_succ q (payload.length / C - (q + 1)) 1]
      rw [List.map_cons]
    · have hlt : r + 1 < C := by omega
      rw [streamOnData_nocut C (payload.length : Int) srv st q r b hsize hlt]
      have hchunks' : st.chunks ++ [[b]] =
          (if 1 ≤ q then [([] : Bytes)] else []) ++
            ((payload.drop (C * q)).take (r + 1)).map (fun x => [x]) := by
        have hget : (payload.drop (C * q))[r]? = some b := by
          rw [List.getElem?_drop]
          exact hb
        have htake := List.take_succ (l := payload.drop (C * q)) (n := r)
        rw [hget] at htake
        rw [htake]
        have : (some b).toList = [b] := rfl
        rw [this, List.map_append, hchunks, List.append_assoc]
        rfl
      have ihs := ih q (r + 1) ⟨st.position, st.chunks ++ [[b]], ((r + 1 : Nat) : Int),
          st.sent, st.ok⟩
        hlt
        (by simp only [List.length_cons] at hm; omega)
        (by rw [show C * q + (r + 1) = C * q + r + 1 by omega]; exact hsuf')
        hpos
        hchunks'
        rfl
      rw [ihs]

lemma canonBodies_flatten (C : Nat) (payload : Bytes) :
    ∀ q : Nat,
      ((((List.range q).map (streamCanonChunk C payload)).map SentChunk.body)).flatten =
        payload.take (C * q) := by
  intro q
  induction q with
  | zero => simp
  | succ q' ih =>
    rw [List.range_succ, List.map_append, List.map_append, List.flatten_append, ih]
    have hbody : ((([q'].map (streamCanonChunk C payload)).map SentChunk.body)).flatten =
        (payload.drop (C * q')).take C := by
      simp [streamCanonChunk]
    rw [hbody]
    rw [show C * (q' + 1) = C * q' + C by ring]
    rw [List.take_add]

lemma uploadChunk_body (data : Bytes) (start stop total : Int) (r : Option String) :
    (uploadChunk data start stop total r).1.body = data := rfl

lemma uploadStreamInChunks_canonical (C : Nat) (hC : 1 ≤ C) (payload : Bytes)
    (srv : Nat → Option String) :
    (uploadStreamInChunks (C : Int) (payload.map fun b => [b]) srv false false 0
        (payload.length : Int)).result = Except.ok () ∧
    (uploadStreamInChunks (C : Int) (payload.map fun b => [b]) srv false false 0
        (payload.length : Int)).st.ok = true ∧
    (uploadStreamInChunks (C : Int) (payload.map fun b => [b]) srv false false 0
        (payload.length : Int)).st.sent.length =
      (if payload.length = 0 then 0 else payload.length / C + 1) ∧
    ((uploadStreamInChunks (C : Int) (payload.map fun b => [b]) srv false false 0
        (payload.length : Int)).st.sent.map SentChunk.body).flatten = payload ∧
    (uploadStreamInChunks (C : Int) (payload.map fun b => [b]) srv false false 0
        (payload.length : Int)).st.position = (payload.length : Int) := by
  unfold uploadStreamInChunks
  rw [if_neg (by simp)]
  rw [List.foldl_map]
  have hfold := streamFold_canonical C hC payload srv payload 0 0
    ⟨(0 : Int), [], 0, [], true⟩ (by omega) (by omega)
    (by rw [show C * 0 + 0 = 0 by omega, List.drop_zero])
    (by norm_num) (by norm_num) rfl
  rw [hfold]
  by_cases hS : payload.length = 0
  · have hnil : payload = [] := List.length_eq_zero.mp hS
    subst hnil
    simp [streamOnEnd]
  · have hdm0 : C * (payload.length / C) + payload.length % C = payload.length :=
      Nat.div_add_mod payload.length C
    have hrfC0 : payload.length % C < C := Nat.mod_lt _ (by omega)
    obtain ⟨qf, hqf⟩ : ∃ qf, payload.length / C = qf := ⟨_, rfl⟩
    obtain ⟨rf, hrf⟩ : ∃ rf, payload.length % C = rf := ⟨_, rfl⟩
    rw [hqf] at hdm0 ⊢
    rw [hrf] at hdm0 hrfC0 ⊢
    have hdroplen : (payload.drop (C * qf)).length = rf := by
      rw [List.length_drop]
      omega
    have hne : (if 1 ≤ qf then [([] : Bytes)] else []) ++
        ((payload.drop (C * qf)).take rf).map (fun b => [b]) ≠ [] := by
      by_cases hq1 : 1 ≤ qf
      · rw [if_pos hq1]
        simp
      · have hq0 : qf = 0 := by omega
        have hz : C * qf = 0 := by rw [hq0, Nat.mul_zero]
        have hrf1 : 1 ≤ rf := by omega
        rw [if_neg hq1, List.nil_append]
        intro hcontra
        rw [List.map_eq_nil_iff] at hcontra
        have hlen := congrArg List.length hcontra
        rw [List.length_take] at hlen
        simp only [List.length_nil] at hlen
        omega
    have hie : ((if 1 ≤ qf then [([] : Bytes)] else []) ++
        ((payload.drop (C * qf)).take rf).map (fun b => [b])).isEmpty = false := by
      cases hc : (if 1 ≤ qf then [([] : Bytes)] else []) ++
          ((payload.drop (C * qf)).take rf).map (fun b => [b]) with
      | nil => exact absurd hc hne
      | cons y ys => rfl
    have hbufeq : ((if 1 ≤ qf then [([] : Bytes)] else []) ++
        ((payload.drop (C * qf)).take rf).map (fun b => [b])).flatten =
        payload.drop (C * qf) := by
      rw [List.flatten_append, flatten_map_single]
      have hpre : (if 1 ≤ qf then [([] : Bytes)] else []).flatten = ([] : Bytes) := by
        by_cases hq1 : 1 ≤ qf <;> simp [hq1]
      rw [hpre, List.nil_append]
      exact List.take_of_length_le (by omega)
    simp only [streamOnEnd]
    rw [if_neg (by rw [hie]; exact Bool.false_ne_true)]
    rw [if_neg Bool.false_ne_true]
    refine ⟨rfl, rfl, ?_, ?_, ?_⟩
    · simp only [List.nil_append, List.length_append, List.length_map,
        List.length_range', List.length_cons, List.length_nil]
      rw [if_neg hS]
      omega
    · simp only [List.nil_append, List.map_append, List.flatten_append,
        List.map_cons, List.map_nil, List.flatten_cons, List.flatten_nil,
        List.append_nil, uploadChunk_body]
      have hcanon : (((List.range' 0 (qf - 0)).map
          (streamCanonChunk C payload)).map SentChunk.body).flatten =
          payload.take (C * qf) := by
        rw [Nat.sub_zero, ← List.range_eq_range']
        exact canonBodies_flatten C payload qf
      rw [hcanon]
      have hpreflat : (if 1 ≤ qf then [([] : Bytes)] else []).flatten = ([] : Bytes) := by
        by_cases hq1 : 1 ≤ qf <;> simp [hq1]
      rw [hpreflat, List.nil_append, flatten_map_single]
      rw [List.take_of_length_le (le_of_eq hdroplen)]
      exact List.take_append_drop _ _
    · simp only []
      omega

/-- C2 (counterexample). With chunk size 1 and an exactly-acking server: a
push stream delivering exactly S = 1 byte issues 2 chunk requests, not
`ceil(1/1) = 1` — after the only full chunk is cut, `chunks` still holds an
empty `Buffer`, so the `end` handler sends a zero-byte flush request. And the
file driver's 2-byte upload transmits 3 body bytes, not S = 2, because each
non-final read window includes one extra byte. -/
theorem c2_counterexample_stream_and_file :
    (uploadStreamInChunks 1 [[42]] (fun _ => some "bytes=0-0") false false 0 1).st.sent.length
        = 2 ∧
    ceilDiv 1 1 = 1 ∧ (2 : Nat) ≠ 1 ∧
    sumBodies (uploadFileInChunks 1 [10, 20]
        (fun k => if k = 0 then some "bytes=0-0" else some "bytes=0-1")
        (fun _ => false) 0 2 2).sent = 3 ∧
    (3 : Nat) ≠ 2 := by
  refine ⟨by decide, by decide, by decide, by decide, by decide⟩

/-- C2 (amended). From scratch (start 0), with the server acking at most the
bytes received so far: the buffer and blob drivers issue exactly
`ceil(S/C)` chunk requests whose bodies total exactly `S` bytes and finish at
position `S`; the file driver issues exactly `ceil(S/C)` requests and
finishes at `S`, but its bodies total `S + (ceil(S/C) - 1)` bytes (one extra
byte per non-final chunk); the push-stream driver fed byte-at-a-time events
resolves with the bodies concatenating to exactly the payload and final
position `S`, but issues `S/C + 1` requests whenever `S > 0` — one more than
`ceil(S/C)` when `C` divides `S`, the last being a zero-byte flush. -/
theorem c2_amended_chunk_counting :
    (∀ (chunkSize total : Int) (view : Bytes) (srv : Nat → Option String),
      1 ≤ chunkSize → 0 ≤ total → (view.length : Int) = total →
      (uploadBufferInChunks chunkSize view srv (fun _ => false) 0 total total.toNat).outcome =
          Outcome.done total ∧
      (uploadBufferInChunks chunkSize view srv (fun _ => false) 0 total
          total.toNat).sent.length = ceilDiv total.toNat chunkSize.toNat ∧
      sumBodies (uploadBufferInChunks chunkSize view srv (fun _ => false) 0 total
          total.toNat).sent = total.toNat) ∧
    (∀ (chunkSize total : Int) (blob : Bytes) (srv : Nat → Option String),
      1 ≤ chunkSize → 0 ≤ total → (blob.length : Int) = total →
      (uploadBlobInChunks chunkSize blob srv (fun _ => false) 0 total total.toNat).outcome =
          Outcome.done total ∧
      (uploadBlobInChunks chunkSize blob srv (fun _ => false) 0 total
          total.toNat).sent.length = ceilDiv total.toNat chunkSize.toNat ∧
      sumBodies (uploadBlobInChunks chunkSize blob srv (fun _ => false) 0 total
          total.toNat).sent = total.toNat) ∧
    (∀ (chunkSize total : Int) (file : Bytes) (srv : Nat → Option String),
      1 ≤ chunkSize → 0 ≤ total → (file.length : Int) = total →
      (∀ j : Nat, (parseRangeHeader (srv j) : Int) ≤
        min (chunkSize * ((j : Int) + 1)) total) →
      (uploadFileInChunks chunkSize file srv (fun _ => false) 0 total total.toNat).outcome =
          Outcome.done total ∧
      (uploadFileInChunks chunkSize file srv (fun _ => false) 0 total
          total.toNat).sent.length = ceilDiv total.toNat chunkSize.toNat ∧
      sumBodies (uploadFileInChunks chunkSize file srv (fun _ => false) 0 total
          total.toNat).sent =
        total.toNat + (ceilDiv total.toNat chunkSize.toNat - 1)) ∧
    (∀ (C : Nat) (payload : Bytes) (srv : Nat → Option String), 1 ≤ C →
      (uploadStreamInChunks (C : Int) (payload.map fun b => [b]) srv false false 0
          (payload.length : Int)).result = Except.ok () ∧
      (uploadStreamInChunks (C : Int) (payload.map fun b => [b]) srv false false 0
          (payload.length : Int)).st.ok = true ∧
      (uploadStreamInChunks (C : Int) (payload.map fun b => [b]) srv false false 0
          (payload.length : Int)).st.sent.length =
        (if payload.length = 0 then 0 else payload.length / C + 1) ∧
      ((uploadStreamInChunks (C : Int) (payload.map fun b => [b]) srv false false 0
          (payload.length : Int)).st.sent.map SentChunk.body).flatten = payload ∧
      (uploadStreamInChunks (C : Int) (payload.map fun b => [b]) srv false false 0
          (payload.length : Int)).st.position = (payload.length : Int)) := by
  refine ⟨?_, ?_, ?_, ?_⟩
  · intro chunkSize total view srv hC htot hv
    have h := bufferLoop_count chunkSize total view srv hC total.toNat 0 0
      (by omega) htot (by omega)
    have h0 : (total - 0).toNat = total.toNat := by omega
    rw [h0] at h
    exact ⟨h.1, h.2.1, h.2.2 hv⟩
  · intro chunkSize total blob srv hC htot hv
    have h := blobLoop_count chunkSize total blob srv hC total.toNat 0 0
      (by omega) htot (by omega)
    have h0 : (total - 0).toNat = total.toNat := by omega
    rw [h0] at h
    exact ⟨h.1, h.2.1, h.2.2 hv⟩
  · intro chunkSize total file srv hC htot hv hack
    have hmin0 : min (chunkSize * ((0 : Nat) : Int)) total = 0 := by
      rw [show chunkSize * ((0 : Nat) : Int) = 0 by push_cast; ring]
      omega
    have h := fileLoop_count chunkSize total file srv hC htot hack total.toNat 0
      (by rw [hmin0]; omega)
    rw [hmin0] at h
    have h0 : (total - 0).toNat = total.toNat := by omega
    rw [h0] at h
    exact ⟨h.1, h.2.1, h.2.2 hv⟩
  · intro C payload srv hC
    exact uploadStreamInChunks_canonical C hC payload srv

/-- Witness for C2 (amended): the buffer conjunct at S = 3, C = 2 (two
requests totalling three bytes) and the stream conjunct at S = 1, C = 1. -/
theorem c2_amended_chunk_counting_witness :
    ((1 : Int) ≤ 2 ∧ (0 : Int) ≤ 3 ∧ (([1, 2, 3] : Bytes).length : Int) = 3 ∧
      (uploadBufferInChunks 2 [1, 2, 3] (fun _ => none) (fun _ => false) 0 3 3).sent.length =
        ceilDiv 3 2 ∧
      sumBodies (uploadBufferInChunks 2 [1, 2, 3] (fun _ => none) (fun _ => false)
        0 3 3).sent = 3) ∧
    ((uploadStreamInChunks 1 (([9] : Bytes).map fun b => [b]) (fun _ => none) false false 0
        (([9] : Bytes).length : Int)).st.sent.length = 2) :=
  ⟨⟨by decide, by decide, by decide,
      (c2_amended_chunk_counting.1 2 3 [1, 2, 3] (fun _ => none) (by decide) (by decide)
        (by decide)).2.1,
      (c2_amended_chunk_counting.1 2 3 [1, 2, 3] (fun _ => none) (by decide) (by decide)
        (by decide)).2.2⟩,
    by
      have h := (c2_amended_chunk_counting.2.2.2 1 [9] (fun _ => none) (by decide)).2.2.1
      simpa using h⟩
